import Mathlib

set_option maxRecDepth 8192

/-!
Verification of `src/data/make_dataset.py` from the cneuromod movie10 ISC
preprocessing repository.  The script is embedded shallowly: filenames are
`String`s, NIfTI images are reduced to their time dimension (frame count)
plus the masking configuration applied to them, tabular confound files are a
header together with string-valued rows, and the script's file-system effects
are an explicit trace of events.
-/

namespace MakeDataset

/-! ### Strings: Python `str.replace` and the `task-{task}(\d+)` regex key -/

/-- Python `str.replace` on character lists: every non-overlapping occurrence
of `pat` is replaced by `rep`, scanning left to right.  An empty pattern is
treated as matching nothing (the script only ever replaces a non-empty
fragment).  The fuel argument makes the recursion structural; any fuel at
least the length of the scanned list yields the replacement. -/
def replaceFuel (pat rep : List Char) : Nat → List Char → List Char
  | 0, l => l
  | _ + 1, [] => []
  | fuel + 1, c :: cs =>
    if pat ≠ [] ∧ pat.isPrefixOf (c :: cs) then
      rep ++ replaceFuel pat rep fuel (List.drop pat.length (c :: cs))
    else
      c :: replaceFuel pat rep fuel cs

/-- Python `str.replace` lifted to `String`. -/
def pyReplace (s pat rep : String) : String :=
  ⟨replaceFuel pat.data rep.data s.data.length s.data⟩

/-- Value of a (non-empty) run of decimal digits, as Python `int` reads it. -/
def digitsToNat (ds : List Char) : Nat :=
  ds.foldl (fun a c => a * 10 + (c.toNat - 48)) 0

/-- One attempt of the regex `task-{task}(\d+)` at a fixed position: the
literal pattern `pat` must be a prefix of `rest` and be followed by at least
one decimal digit; the captured group is the maximal digit run. -/
def matchKeyAt (pat rest : List Char) : Option Nat :=
  if pat.isPrefixOf rest then
    let run := (rest.drop pat.length).takeWhile Char.isDigit
    if run.isEmpty then none else some (digitsToNat run)
  else none

/-- The semantics of `re.search(f'task-{task}(\d+)', x)` followed by
`int(....group(1))`: try every position left to right, return the integer
captured at the first matching position, `none` when no position matches. -/
def searchKeyAux (pat : List Char) : List Char → Option Nat
  | [] => matchKeyAt pat []
  | c :: cs =>
    match matchKeyAt pat (c :: cs) with
    | some k => some k
    | none => searchKeyAux pat cs

/-- The sort key the script computes for filename `f` of task `task`. -/
def segKey (task f : String) : Option Nat :=
  searchKeyAux ("task-" ++ task).data f.data

/-- Plain containment: `f` contains the substring `task-` followed by the
task name followed by at least one decimal digit (the claim's hypothesis,
stated without reference to the search order). -/
def containsTaskDigit (task f : String) : Bool :=
  (List.range (f.data.length + 1)).any
    (fun i => (matchKeyAt ("task-" ++ task).data (f.data.drop i)).isSome)

/-- Ordering of filenames by their integer segment key, the comparison that
`sorted(files, key=...)` sorts by. -/
def keyLe (task a b : String) : Prop :=
  (segKey task a).getD 0 ≤ (segKey task b).getD 0

instance (task : String) : DecidableRel (keyLe task) :=
  fun _ _ => Nat.decLe _ _

/-- Embedding of `_get_segment`.  Python's `sorted` first materialises the
key of every element; a filename whose key raises (no regex match) makes the
whole call fail, which the embedding renders as `none`.  Otherwise the list
is stably sorted by the integer key (Python's Timsort and insertion sort are
both stable, hence produce the same list). -/
def _get_segment (files : List String) (task : String) : Option (List String) :=
  if files.all (fun f => (segKey task f).isSome) then
    some (files.insertionSort (keyLe task))
  else none

example : segKey "bourne" "sub-01/f_task-bourne10_bold.nii" = some 10 := by rfl
example : segKey "bourne" "sub-01/f_task-bourne_bold.nii" = none := by rfl
example :
    _get_segment
      ["a_task-wolf10_x.nii", "b_task-wolf2_x.nii", "c_task-wolf1_x.nii"] "wolf"
    = some ["c_task-wolf1_x.nii", "b_task-wolf2_x.nii", "a_task-wolf10_x.nii"] := by
  rfl

/-! ### Tabular confound files and `_subset_confounds` -/

/-- A parsed tab-separated confound file as `np.recfromcsv` sees it: a header
of column names and the data rows.  Cell values are kept as strings; the
claims only concern which cells are retained, not float parsing. -/
structure Tsv where
  header : List String
  rows : List (List String)
deriving DecidableEq, Repr

/-- The confound columns the script keeps (`keep_confounds` in the source). -/
def keep_confounds : List String :=
  ["trans_x", "trans_y", "trans_z",
   "rot_x", "rot_y", "rot_z",
   "csf", "white_matter"]

/-- Index of the first column named `name`, as numpy field access resolves a
field name. -/
def lookupIdx (name : String) : List String → Option Nat
  | [] => none
  | h :: hs => if h = name then some 0 else (lookupIdx name hs).map (· + 1)

/-- The data of column `i`: the `i`-th cell of every row. -/
def column (tsv : Tsv) (i : Nat) : List String :=
  tsv.rows.map (fun r => r.getD i "")

/-- Select the named fields, in order; numpy raises on a missing field, which
the embedding renders as `none`. -/
def selectFields (tsv : Tsv) : List String → Option (List (String × List String))
  | [] => some []
  | k :: ks =>
    match lookupIdx k tsv.header with
    | none => none
    | some i => (selectFields tsv ks).map (fun rest => (k, column tsv i) :: rest)

/-- Embedding of `_subset_confounds`: load the tsv and keep exactly the
columns of `keep_confounds`, in that order. -/
def _subset_confounds (tsv : Tsv) : Option (List (String × List String)) :=
  selectFields tsv keep_confounds

/-! ### Images and `_nifti_mask_movie` -/

/-- A NIfTI scan reduced to what the claims observe: its number of time
frames. -/
structure Image where
  frames : Nat
deriving DecidableEq, Repr

/-- The configuration of a `NiftiMasker`, exactly the keyword arguments the
script passes.  Frequencies and times are rationals (0.01 Hz, 1.49 s). -/
structure MaskerCfg where
  mask_img : String
  standardize : Bool
  detrend : Bool
  high_pass : Rat
  t_r : Rat
  smoothing_fwhm : Option Nat
deriving DecidableEq, Repr

/-- The value `_nifti_mask_movie` returns: the cleaned data transformed back
to image space.  It records the masker configuration used, the confounds
regressed out, whether `inverse_transform` was applied, and the (preserved)
number of frames. -/
structure MaskedImage where
  cfg : MaskerCfg
  confounds : List (String × List String)
  inverse_transformed : Bool
  frames : Nat
deriving DecidableEq, Repr

/-- Embedding of `_nifti_mask_movie`: build the masker with the hard-coded
cleaning parameters, fit-transform the scan with the supplied confounds
(which preserves the number of time points), and inverse-transform back. -/
def _nifti_mask_movie (scan : Image) (mask : String)
    (confounds : List (String × List String)) (smoothing_fwhm : Option Nat) :
    MaskedImage :=
  let masker : MaskerCfg :=
    { mask_img := mask, standardize := true, detrend := true,
      high_pass := 1 / 100, t_r := 149 / 100, smoothing_fwhm := smoothing_fwhm }
  { cfg := masker, confounds := confounds,
    inverse_transformed := true, frames := scan.frames }

/-! ### `create_data_dictionary` -/

/-- The per-task record stored in the data dictionary. -/
structure TaskData where
  segment_lengths : List Nat
  regr_str : String
  tmpl_str : String
deriving DecidableEq, Repr

/-- Embedding of `create_data_dictionary`: the task list together with the
dictionary, kept as an association list in Python's insertion order. -/
def create_data_dictionary : List String × List (String × TaskData) :=
  let tasks := ["bourne", "wolf", "figures", "life"]
  let segment_lengths : List (List Nat) :=
    [[403, 405, 405, 405, 405, 405, 405, 405, 405, 380],
     [406, 406, 406, 406, 406, 406, 406, 406, 406, 406,
      406, 406, 406, 406, 406, 406, 498],
     [410, 410, 410, 409, 408, 410, 410, 409, 410, 409, 409, 373],
     [406, 406, 406, 406, 384]]
  let regr_str := ["desc-confounds_regressors.tsv",
                   "run-1_desc-confounds_regressors.tsv"]
  let tmpl_str := ["space-MNI152NLin2009cAsym_desc-preproc_bold",
                   "run-1_space-MNI152NLin2009cAsym_desc-preproc_bold"]
  let regr_pairs := regr_str.flatMap (fun x => [x, x])
  let tmpl_pairs := tmpl_str.flatMap (fun x => [x, x])
  (tasks,
   (tasks.zip (segment_lengths.zip (regr_pairs.zip tmpl_pairs))).map
     (fun p => (p.1, ⟨p.2.1, p.2.2.1, p.2.2.2⟩)))

/-- The subject list hard-coded at the top of the script. -/
def subjects : List String :=
  ["sub-01", "sub-02", "sub-03", "sub-04", "sub-05", "sub-06"]

/-! ### `subset_and_process_movie10` -/

/-- The Python exceptions the function can raise. -/
inductive PyErr
  | unboundLocal
  | assertionFailed
  | keyError
  | indexError
  | valueError
deriving DecidableEq, Repr

/-- Observable effects of one call: reading a confound file, cleaning one
scan segment, and writing an output image. -/
inductive Effect
  | readConfounds (file : String)
  | cleanScan (file : String)
  | writeImage (name : String) (img : Image)
deriving DecidableEq, Repr

instance : DecidableEq (Except PyErr String) := fun a b =>
  match a, b with
  | .ok x, .ok y => decidable_of_iff (x = y) (by simp)
  | .error x, .error y => decidable_of_iff (x = y) (by simp)
  | .ok _, .error _ => isFalse (by simp)
  | .error _, .ok _ => isFalse (by simp)

/-- Outcome of a call: the trace of effects it performed, and either the
returned filename or the exception that escaped. -/
structure ProcResult where
  trace : List Effect
  ret : Except PyErr String
deriving DecidableEq, Repr

/-- The templateflow brain mask path hard-coded in the function. -/
def tpl_mask : String :=
  "./tpl-MNI152NLin2009cAsym_res-02_desc-brain_mask.nii.gz"

/-- The list comprehension `[_subset_confounds(r) for r in
regressor_segments]`: confound files are read left to right; a missing field
aborts the comprehension with the numpy exception. -/
def loadConfounds (confFiles : String → Tsv) :
    List String → List Effect × Except PyErr (List (List (String × List String)))
  | [] => ([], .ok [])
  | r :: rs =>
    match _subset_confounds (confFiles r) with
    | none => ([.readConfounds r], .error .keyError)
    | some c =>
      let rest := loadConfounds confFiles rs
      (.readConfounds r :: rest.1, rest.2.map (fun cs => c :: cs))

/-- The `for n, m in enumerate(movie_segments)` loop: each iteration indexes
`confounds[n]` (IndexError when out of range), cleans the scan, then indexes
`seg_len[n]` (IndexError when out of range) and truncates the cleaned segment
to its first `seg_len[n]` frames (`slicer[..., :seg_len[n]]`, i.e. at most
that many). -/
def cleanLoop (boldFrames : String → Nat) (fwhm : Option Nat)
    (confounds : List (List (String × List String))) (seg_len : List Nat) :
    List String → Nat → List Effect × Except PyErr (List Image)
  | [], _ => ([], .ok [])
  | m :: ms, n =>
    match confounds[n]? with
    | none => ([], .error .indexError)
    | some c =>
      let postproc := _nifti_mask_movie ⟨boldFrames m⟩ tpl_mask c fwhm
      match seg_len[n]? with
      | none => ([.cleanScan m], .error .indexError)
      | some L =>
        let rest := cleanLoop boldFrames fwhm confounds seg_len ms (n + 1)
        (.cleanScan m :: rest.1,
         rest.2.map (fun imgs => (⟨min L postproc.frames⟩ : Image) :: imgs))

/-- Rendering of the `fwhm` value inside the f-string `f'desc-fwhm{fwhm}'`. -/
def fwhmRepr : Option Nat → String
  | none => "None"
  | some n => toString n

/-- The output filename the function builds: the subject/task template
filename with the fragment `desc-preproc` replaced by `desc-fwhm{fwhm}`. -/
def procName (s t tmpl : String) (fwhm : Option Nat) : String :=
  pyReplace (s ++ "/" ++ s ++ "_task-" ++ t ++ "_" ++ tmpl ++ ".nii.gz")
    "desc-preproc" ("desc-fwhm" ++ fwhmRepr fwhm)

/-- The body of `subset_and_process_movie10` after the assertion, lines
184-199 of the source: build the confound list, clean and truncate each
movie segment, concatenate and write.  `seg_len`, `s`, `t` and `tmpl` are the
module-level globals the body reads. -/
def processBody (boldFrames : String → Nat) (confFiles : String → Tsv)
    (movie_segments regressor_segments : List String)
    (fwhm : Option Nat) (seg_len : List Nat) (s t tmpl : String) : ProcResult :=
  let conf := loadConfounds confFiles regressor_segments
  match conf.2 with
  | .error e => { trace := conf.1, ret := .error e }
  | .ok confounds =>
    let cleaned := cleanLoop boldFrames fwhm confounds seg_len movie_segments 0
    match cleaned.2 with
    | .error e => { trace := conf.1 ++ cleaned.1, ret := .error e }
    | .ok postproc_segments =>
      let postproc_fname := procName s t tmpl fwhm
      match postproc_segments with
      | [] =>
        -- `image.concat_imgs` rejects an empty list of images
        { trace := conf.1 ++ cleaned.1, ret := .error .valueError }
      | _ =>
        let movie : Image := ⟨(postproc_segments.map Image.frames).sum⟩
        { trace := conf.1 ++ cleaned.1 ++ [.writeImage postproc_fname movie],
          ret := .ok postproc_fname }

/-- Embedding of `subset_and_process_movie10`.  The function's declared
parameters come first; `seg_len`, `s`, `t` and `tmpl` are the module-level
globals its body actually reads (the body never uses the `segment_lengths`
parameter).  `boldFrames` and `confFiles` stand for the file system: the
frame count of each BOLD file and the contents of each confound file. -/
def subset_and_process_movie10
    (boldFrames : String → Nat) (confFiles : String → Tsv)
    (bold_files regressors : List String) ( segment_lengths : List Nat)
    (n_segments : Option Nat) (fwhm : Option Nat)
    (seg_len : List Nat) (s t tmpl : String) : ProcResult :=
  match n_segments with
  | none =>
    -- With `n_segments is None` the branch assigning `movie_segments` and
    -- `regressor_segments` is skipped, so the comprehension at line 185
    -- raises UnboundLocalError before any file is read, cleaned or written.
    { trace := [], ret := .error .unboundLocal }
  | some k =>
    if k ≤ bold_files.length then
      processBody boldFrames confFiles
        (bold_files.take k) (regressors.take k) fwhm seg_len s t tmpl
    else
      -- `assert n_segments <= len(bold_files)` fails
      { trace := [], ret := .error .assertionFailed }

/-! ### The `__main__` block -/

/-- The statements executed for one `(s, t)` pair of the grid, in source
order: two `rglob` calls, two `_get_segment` sorts, then one call to
`subset_and_process_movie10` (which cleans, truncates, concatenates and
writes). -/
inductive MainStep
  | globScans (s t : String)
  | globRegressors (s t : String)
  | sortScans (s t : String)
  | sortRegressors (s t : String)
  | processPair (s t : String)
deriving DecidableEq, Repr

/-- The loop body for one pair; it is a straight line with no branching. -/
def pairSteps (s t : String) : List MainStep :=
  [.globScans s t, .globRegressors s t,
   .sortScans s t, .sortRegressors s t, .processPair s t]

/-- The `for s, t in itertools.product(subjects, tasks)` loop: iterate the
pair list in order, executing the body for each pair. -/
def mainLoop : List (String × String) → List MainStep
  | [] => []
  | p :: ps => pairSteps p.1 p.2 ++ mainLoop ps

/-- The grid `itertools.product(subjects, tasks)`: subject-major,
task-minor. -/
def taskGrid : List (String × String) :=
  subjects.flatMap (fun s => create_data_dictionary.1.map (fun t => (s, t)))

/-- The statement trace of the `__main__` block. -/
def mainTrace : List MainStep :=
  mainLoop taskGrid

/-- The pairs for which a `processPair` statement appears in a trace, in
order. -/
def processedPairs (tr : List MainStep) : List (String × String) :=
  tr.filterMap (fun st =>
    match st with
    | .processPair s t => some (s, t)
    | _ => none)

/-- The output files written during a trace, in order, with the image each
one received. -/
def writesOf (tr : List Effect) : List (String × Image) :=
  tr.filterMap (fun e =>
    match e with
    | .writeImage n i => some (n, i)
    | _ => none)

/-! ## Theorems -/

/-- C5: `create_data_dictionary` returns the task list
`['bourne', 'wolf', 'figures', 'life']` and a dictionary keyed by exactly
those four tasks; each task maps to its hard-coded segment-length list
(10 entries for bourne, 17 for wolf, 12 for figures, 5 for life), bourne and
wolf carry the regressor/template strings without a run key-value, and
figures and life carry the `run-1` variants. -/
theorem create_data_dictionary_spec :
    create_data_dictionary.1 = ["bourne", "wolf", "figures", "life"] ∧
    create_data_dictionary.2.map Prod.fst = ["bourne", "wolf", "figures", "life"] ∧
    create_data_dictionary.2.lookup "bourne" = some
      ⟨[403, 405, 405, 405, 405, 405, 405, 405, 405, 380],
       "desc-confounds_regressors.tsv",
       "space-MNI152NLin2009cAsym_desc-preproc_bold"⟩ ∧
    create_data_dictionary.2.lookup "wolf" = some
      ⟨[406, 406, 406, 406, 406, 406, 406, 406, 406, 406,
        406, 406, 406, 406, 406, 406, 498],
       "desc-confounds_regressors.tsv",
       "space-MNI152NLin2009cAsym_desc-preproc_bold"⟩ ∧
    create_data_dictionary.2.lookup "figures" = some
      ⟨[410, 410, 410, 409, 408, 410, 410, 409, 410, 409, 409, 373],
       "run-1_desc-confounds_regressors.tsv",
       "run-1_space-MNI152NLin2009cAsym_desc-preproc_bold"⟩ ∧
    create_data_dictionary.2.lookup "life" = some
      ⟨[406, 406, 406, 406, 384],
       "run-1_desc-confounds_regressors.tsv",
       "run-1_space-MNI152NLin2009cAsym_desc-preproc_bold"⟩ ∧
    ((create_data_dictionary.2.lookup "bourne").map
      (fun d => d.segment_lengths.length) = some 10) ∧
    ((create_data_dictionary.2.lookup "wolf").map
      (fun d => d.segment_lengths.length) = some 17) ∧
    ((create_data_dictionary.2.lookup "figures").map
      (fun d => d.segment_lengths.length) = some 12) ∧
    ((create_data_dictionary.2.lookup "life").map
      (fun d => d.segment_lengths.length) = some 5) :=
  ⟨rfl, rfl, rfl, rfl, rfl, rfl, rfl, rfl, rfl, rfl⟩

/-- C6: `_nifti_mask_movie` cleans a segment inside the supplied mask with
standardization on, detrending on, a 0.01 Hz high-pass at a repetition time
of 1.49 s, regressing out exactly the supplied confounds; the smoothing
kernel of the masker is exactly the `smoothing_fwhm` argument (so smoothing
happens precisely when one is given), and the cleaned data is
inverse-transformed back to image space with its time points preserved. -/
theorem nifti_mask_movie_config (scan : Image) (mask : String)
    (confounds : List (String × List String)) (fwhm : Option Nat) :
    (_nifti_mask_movie scan mask confounds fwhm).cfg.mask_img = mask ∧
    (_nifti_mask_movie scan mask confounds fwhm).cfg.standardize = true ∧
    (_nifti_mask_movie scan mask confounds fwhm).cfg.detrend = true ∧
    (_nifti_mask_movie scan mask confounds fwhm).cfg.high_pass = 1 / 100 ∧
    (_nifti_mask_movie scan mask confounds fwhm).cfg.t_r = 149 / 100 ∧
    (_nifti_mask_movie scan mask confounds fwhm).cfg.smoothing_fwhm = fwhm ∧
    (_nifti_mask_movie scan mask confounds fwhm).confounds = confounds ∧
    (_nifti_mask_movie scan mask confounds fwhm).inverse_transformed = true ∧
    (_nifti_mask_movie scan mask confounds fwhm).frames = scan.frames :=
  ⟨rfl, rfl, rfl, rfl, rfl, rfl, rfl, rfl, rfl⟩

/-- C9: calling `subset_and_process_movie10` with `n_segments = None` fails
with an unbound-variable error (the segment lists are only assigned inside
the `n_segments is not None` branch), and the empty effect trace shows that
no confound file is read, no segment cleaned and no output written. -/
theorem subset_and_process_none_unbound
    (boldFrames : String → Nat) (confFiles : String → Tsv)
    (bold_files regressors : List String) (segment_lengths : List Nat)
    (fwhm : Option Nat) (seg_len : List Nat) (s t tmpl : String) :
    (subset_and_process_movie10 boldFrames confFiles bold_files regressors
        segment_lengths none fwhm seg_len s t tmpl).ret
      = .error .unboundLocal ∧
    (subset_and_process_movie10 boldFrames confFiles bold_files regressors
        segment_lengths none fwhm seg_len s t tmpl).trace = [] :=
  ⟨rfl, rfl⟩

/-- C7: the `__main__` block visits every pair of the 6-subject × 4-task
grid exactly once, in subject-major, task-minor order (the explicit list
below), and the whole statement trace is, pair after pair, the same fixed
straight-line sequence (glob scans, glob regressors, sort scans, sort
regressors, process) with no branching between pairs. -/
theorem main_grid_trace :
    processedPairs mainTrace =
      [("sub-01", "bourne"), ("sub-01", "wolf"),
       ("sub-01", "figures"), ("sub-01", "life"),
       ("sub-02", "bourne"), ("sub-02", "wolf"),
       ("sub-02", "figures"), ("sub-02", "life"),
       ("sub-03", "bourne"), ("sub-03", "wolf"),
       ("sub-03", "figures"), ("sub-03", "life"),
       ("sub-04", "bourne"), ("sub-04", "wolf"),
       ("sub-04", "figures"), ("sub-04", "life"),
       ("sub-05", "bourne"), ("sub-05", "wolf"),
       ("sub-05", "figures"), ("sub-05", "life"),
       ("sub-06", "bourne"), ("sub-06", "wolf"),
       ("sub-06", "figures"), ("sub-06", "life")] ∧
    processedPairs mainTrace =
      subjects.flatMap (fun s => create_data_dictionary.1.map (fun t => (s, t))) ∧
    (processedPairs mainTrace).Nodup ∧
    (processedPairs mainTrace).length = 6 * 4 ∧
    mainTrace = (processedPairs mainTrace).flatMap (fun p => pairSteps p.1 p.2) :=
  ⟨rfl, rfl, by decide, rfl, rfl⟩

/-! ### The regex search succeeds exactly on filenames containing the
pattern -/

lemma searchKeyAux_isSome (pat : List Char) (l : List Char) :
    (searchKeyAux pat l).isSome ↔
      ∃ i, i ≤ l.length ∧ (matchKeyAt pat (l.drop i)).isSome := by
  induction l with
  | nil =>
    simp only [searchKeyAux, List.length_nil, Nat.le_zero, List.drop_nil]
    constructor
    · intro h; exact ⟨0, rfl, h⟩
    · rintro ⟨i, _, h⟩; exact h
  | cons c cs ih =>
    cases h : matchKeyAt pat (c :: cs) with
    | some k =>
      constructor
      · intro _; exact ⟨0, Nat.zero_le _, by simp [h]⟩
      · intro _; simp [searchKeyAux, h]
    | none =>
      have hstep : searchKeyAux pat (c :: cs) = searchKeyAux pat cs := by
        simp [searchKeyAux, h]
      rw [hstep, ih]
      constructor
      · rintro ⟨i, hi, hm⟩
        exact ⟨i + 1, by simpa using Nat.succ_le_succ hi, by simpa using hm⟩
      · rintro ⟨i, hi, hm⟩
        cases i with
        | zero =>
          rw [List.drop_zero, h] at hm
          simp at hm
        | succ j =>
          exact ⟨j, by simpa using Nat.le_of_succ_le_succ hi, by simpa using hm⟩

lemma containsTaskDigit_iff (task f : String) :
    containsTaskDigit task f = true ↔ (segKey task f).isSome := by
  rw [containsTaskDigit, segKey, List.any_eq_true, searchKeyAux_isSome]
  constructor
  · rintro ⟨i, hi, hm⟩
    refine ⟨i, ?_, by simpa using hm⟩
    have : i < f.data.length + 1 := List.mem_range.mp hi
    omega
  · rintro ⟨i, hi, hm⟩
    exact ⟨i, List.mem_range.mpr (by omega), by simpa using hm⟩

/-- C2: when every filename contains `task-` followed by the task name
followed by at least one decimal digit, `_get_segment` succeeds and returns a
permutation of its input ordered by non-decreasing embedded segment integer
(the integer the regex captures after `task-{task}`), regardless of the
lexicographic order of the names themselves. -/
theorem get_segment_sorted (files : List String) (task : String)
    (h : ∀ f ∈ files, containsTaskDigit task f = true) :
    ∃ out, _get_segment files task = some out ∧ files.Perm out ∧
      out.Pairwise (keyLe task) := by
  have hall : (files.all fun f => (segKey task f).isSome) = true := by
    rw [List.all_eq_true]
    intro f hf
    simpa using (containsTaskDigit_iff task f).mp (h f hf)
  refine ⟨files.insertionSort (keyLe task), ?_, ?_, ?_⟩
  · simp [_get_segment, hall]
  · exact (List.perm_insertionSort (keyLe task) files).symm
  · haveI : IsTotal String (keyLe task) := ⟨fun a b => Nat.le_total _ _⟩
    haveI : IsTrans String (keyLe task) :=
      ⟨fun _ _ _ hab hbc => Nat.le_trans hab hbc⟩
    exact List.sorted_insertionSort (keyLe task) files

/-- Witness for C2: two wolf files whose lexicographic order (`...wolf10...`
before `...wolf2...`) disagrees with their segment order; the theorem applies
and the sort succeeds. -/
theorem get_segment_sorted_witness :
    (∀ f ∈ ["sub-01/sub-01_task-wolf10_bold.nii.gz",
            "sub-01/sub-01_task-wolf2_bold.nii.gz"],
        containsTaskDigit "wolf" f = true) ∧
    (∃ out,
      _get_segment ["sub-01/sub-01_task-wolf10_bold.nii.gz",
                    "sub-01/sub-01_task-wolf2_bold.nii.gz"] "wolf" = some out ∧
      ["sub-01/sub-01_task-wolf10_bold.nii.gz",
       "sub-01/sub-01_task-wolf2_bold.nii.gz"].Perm out ∧
      out.Pairwise (keyLe "wolf")) :=
  ⟨by decide, get_segment_sorted _ "wolf" (by decide)⟩

/-- C8: if any filename in the input lacks the substring `task-{task}` with
at least one following digit, the regex search yields no match, the key
function raises, and `_get_segment` fails instead of returning a sorted
list. -/
theorem get_segment_malformed (files : List String) (task f : String)
    (hf : f ∈ files) (hbad : containsTaskDigit task f = false) :
    _get_segment files task = none := by
  have hnot : ¬ ((files.all fun g => (segKey task g).isSome) = true) := by
    rw [List.all_eq_true]
    intro hall
    have hsome : (segKey task f).isSome := by simpa using hall f hf
    have := (containsTaskDigit_iff task f).mpr hsome
    rw [hbad] at this
    exact Bool.false_ne_true this
  simp only [_get_segment]
  rw [if_neg (by simpa using hnot)]

/-- Witness for C8: a list whose first entry reads `task-wolf_bold` (no digit
after the task name) makes the call fail. -/
theorem get_segment_malformed_witness :
    "sub-01/sub-01_task-wolf_bold.nii.gz" ∈
      ["sub-01/sub-01_task-wolf_bold.nii.gz",
       "sub-01/sub-01_task-wolf2_bold.nii.gz"] ∧
    containsTaskDigit "wolf" "sub-01/sub-01_task-wolf_bold.nii.gz" = false ∧
    _get_segment ["sub-01/sub-01_task-wolf_bold.nii.gz",
                  "sub-01/sub-01_task-wolf2_bold.nii.gz"] "wolf" = none :=
  ⟨by decide, by decide,
   get_segment_malformed _ "wolf" "sub-01/sub-01_task-wolf_bold.nii.gz"
     (by decide) (by decide)⟩

/-! ### Confound subsetting -/

lemma lookupIdx_spec (k : String) (hs : List String) (hmem : k ∈ hs) :
    ∃ i, lookupIdx k hs = some i ∧ hs[i]? = some k := by
  induction hs with
  | nil => simp at hmem
  | cons h hs ih =>
    by_cases he : h = k
    · exact ⟨0, by simp [lookupIdx, he], by simp [he]⟩
    · have hk : k ∈ hs := by
        rcases List.mem_cons.mp hmem with h1 | h1
        · exact absurd h1.symm he
        · exact h1
      obtain ⟨i, hi, hg⟩ := ih hk
      exact ⟨i + 1, by simp [lookupIdx, he, hi], by simpa using hg⟩

lemma selectFields_spec (tsv : Tsv) (ks : List String)
    (h : ∀ k ∈ ks, k ∈ tsv.header) :
    ∃ out, selectFields tsv ks = some out ∧
      out.map Prod.fst = ks ∧
      ∀ p ∈ out, ∃ i, tsv.header[i]? = some p.1 ∧ p.2 = column tsv i := by
  induction ks with
  | nil => exact ⟨[], rfl, rfl, by simp⟩
  | cons k ks ih =>
    obtain ⟨i, hi, hg⟩ := lookupIdx_spec k tsv.header (h k (by simp))
    obtain ⟨out, hout, hmap, hvals⟩ := ih (fun k' hk' => h k' (by simp [hk']))
    refine ⟨(k, column tsv i) :: out, ?_, ?_, ?_⟩
    · simp [selectFields, hi, hout]
    · simp [hmap]
    · intro p hp
      rcases List.mem_cons.mp hp with rfl | hp
      · exact ⟨i, hg, rfl⟩
      · exact hvals p hp

/-- C3: on a confound table whose header contains (at least) the eight kept
nuisance-regressor names, `_subset_confounds` returns exactly those eight
columns, in the fixed order, each with one value per input row, every value
taken unchanged from the column of the same name in the input. -/
theorem subset_confounds_spec (tsv : Tsv)
    (h : ∀ k ∈ keep_confounds, k ∈ tsv.header) :
    ∃ out, _subset_confounds tsv = some out ∧
      out.map Prod.fst = ["trans_x", "trans_y", "trans_z",
                          "rot_x", "rot_y", "rot_z",
                          "csf", "white_matter"] ∧
      (∀ p ∈ out, p.2.length = tsv.rows.length) ∧
      (∀ p ∈ out, ∃ i, tsv.header[i]? = some p.1 ∧
        p.2 = tsv.rows.map (fun r => r.getD i "")) := by
  obtain ⟨out, hsel, hmap, hvals⟩ := selectFields_spec tsv keep_confounds h
  refine ⟨out, hsel, hmap, ?_, ?_⟩
  · intro p hp
    obtain ⟨i, _, hcol⟩ := hvals p hp
    rw [hcol]
    simp [column]
  · intro p hp
    obtain ⟨i, hg, hcol⟩ := hvals p hp
    exact ⟨i, hg, by rw [hcol]; rfl⟩

/-- Witness for C3: a two-row confound file carrying the eight kept columns
plus an extra one that is dropped. -/
theorem subset_confounds_spec_witness :
    (∀ k ∈ keep_confounds,
      k ∈ (Tsv.mk
        ["trans_x", "trans_y", "trans_z", "rot_x", "rot_y", "rot_z",
         "csf", "white_matter", "framewise_displacement"]
        [["0.1", "0.2", "0.3", "0.4", "0.5", "0.6", "0.7", "0.8", "0.9"],
         ["1.1", "1.2", "1.3", "1.4", "1.5", "1.6", "1.7", "1.8", "1.9"]]).header) ∧
    (∃ out, _subset_confounds (Tsv.mk
        ["trans_x", "trans_y", "trans_z", "rot_x", "rot_y", "rot_z",
         "csf", "white_matter", "framewise_displacement"]
        [["0.1", "0.2", "0.3", "0.4", "0.5", "0.6", "0.7", "0.8", "0.9"],
         ["1.1", "1.2", "1.3", "1.4", "1.5", "1.6", "1.7", "1.8", "1.9"]]) = some out ∧
      out.map Prod.fst = ["trans_x", "trans_y", "trans_z",
                          "rot_x", "rot_y", "rot_z",
                          "csf", "white_matter"] ∧
      (∀ p ∈ out, p.2.length = (Tsv.mk
        ["trans_x", "trans_y", "trans_z", "rot_x", "rot_y", "rot_z",
         "csf", "white_matter", "framewise_displacement"]
        [["0.1", "0.2", "0.3", "0.4", "0.5", "0.6", "0.7", "0.8", "0.9"],
         ["1.1", "1.2", "1.3", "1.4", "1.5", "1.6", "1.7", "1.8", "1.9"]]).rows.length) ∧
      (∀ p ∈ out, ∃ i, (Tsv.mk
        ["trans_x", "trans_y", "trans_z", "rot_x", "rot_y", "rot_z",
         "csf", "white_matter", "framewise_displacement"]
        [["0.1", "0.2", "0.3", "0.4", "0.5", "0.6", "0.7", "0.8", "0.9"],
         ["1.1", "1.2", "1.3", "1.4", "1.5", "1.6", "1.7", "1.8", "1.9"]]).header[i]?
          = some p.1 ∧
        p.2 = (Tsv.mk
        ["trans_x", "trans_y", "trans_z", "rot_x", "rot_y", "rot_z",
         "csf", "white_matter", "framewise_displacement"]
        [["0.1", "0.2", "0.3", "0.4", "0.5", "0.6", "0.7", "0.8", "0.9"],
         ["1.1", "1.2", "1.3", "1.4", "1.5", "1.6", "1.7", "1.8", "1.9"]]).rows.map
          (fun r => r.getD i ""))) :=
  ⟨by decide, subset_confounds_spec _ (by decide)⟩

/-! ### Error classification for the processing body -/

lemma loadConfounds_error_eq (confFiles : String → Tsv) (rs : List String)
    (e : PyErr) (h : (loadConfounds confFiles rs).2 = .error e) :
    e = .keyError := by
  induction rs with
  | nil => simp [loadConfounds] at h
  | cons r rs ih =>
    cases hc : _subset_confounds (confFiles r) with
    | none =>
      simp [loadConfounds, hc] at h
      exact h.symm
    | some c =>
      simp only [loadConfounds, hc] at h
      cases h2 : (loadConfounds confFiles rs).2 with
      | error e' =>
        rw [h2] at h
        simp [Except.map] at h
        subst h
        exact ih h2
      | ok v =>
        rw [h2] at h
        simp [Except.map] at h

lemma cleanLoop_error_eq (boldFrames : String → Nat) (fwhm : Option Nat)
    (confounds : List (List (String × List String))) (seg_len : List Nat)
    (ms : List String) (n : Nat) (e : PyErr)
    (h : (cleanLoop boldFrames fwhm confounds seg_len ms n).2 = .error e) :
    e = .indexError := by
  induction ms generalizing n with
  | nil => simp [cleanLoop] at h
  | cons m ms ih =>
    cases hc : confounds[n]? with
    | none =>
      simp [cleanLoop, hc] at h
      exact h.symm
    | some c =>
      cases hl : seg_len[n]? with
      | none =>
        simp [cleanLoop, hc, hl] at h
        exact h.symm
      | some L =>
        simp only [cleanLoop, hc, hl] at h
        cases h2 : (cleanLoop boldFrames fwhm confounds seg_len ms (n + 1)).2 with
        | error e' =>
          rw [h2] at h
          simp [Except.map] at h
          subst h
          exact ih (n + 1) h2
        | ok v =>
          rw [h2] at h
          simp [Except.map] at h

lemma processBody_ret_ne_assert (boldFrames : String → Nat)
    (confFiles : String → Tsv) (mseg rseg : List String) (fwhm : Option Nat)
    (seg_len : List Nat) (s t tmpl : String) :
    (processBody boldFrames confFiles mseg rseg fwhm seg_len s t tmpl).ret ≠
      .error .assertionFailed := by
  cases h2 : (loadConfounds confFiles rseg).2 with
  | error e =>
    have he := loadConfounds_error_eq confFiles rseg e h2
    simp [processBody, h2, he]
  | ok confounds =>
    cases h3 : (cleanLoop boldFrames fwhm confounds seg_len mseg 0).2 with
    | error e =>
      have he := cleanLoop_error_eq boldFrames fwhm confounds seg_len mseg 0 e h3
      simp [processBody, h2, h3, he]
    | ok segs =>
      cases segs with
      | nil => simp [processBody, h2, h3]
      | cons a as => simp [processBody, h2, h3]

/-- C10: with `n_segments` strictly greater than the number of BOLD files the
assertion fails, before any confound is read, any segment cleaned or any file
written (the trace is empty); with `n_segments` at most the number of BOLD
files the assertion never fires (whatever else happens, the outcome is not an
assertion failure). -/
theorem subset_and_process_assert_guard
    (boldFrames : String → Nat) (confFiles : String → Tsv)
    (bold_files regressors : List String) (segment_lengths : List Nat)
    (fwhm : Option Nat) (seg_len : List Nat) (s t tmpl : String) (k : Nat) :
    (bold_files.length < k →
      subset_and_process_movie10 boldFrames confFiles bold_files regressors
        segment_lengths (some k) fwhm seg_len s t tmpl
      = { trace := [], ret := .error .assertionFailed }) ∧
    (k ≤ bold_files.length →
      (subset_and_process_movie10 boldFrames confFiles bold_files regressors
        segment_lengths (some k) fwhm seg_len s t tmpl).ret
      ≠ .error .assertionFailed) := by
  constructor
  · intro hgt
    simp only [subset_and_process_movie10]
    rw [if_neg (by omega)]
  · intro hle
    simp only [subset_and_process_movie10]
    rw [if_pos hle]
    exact processBody_ret_ne_assert boldFrames confFiles _ _ fwhm seg_len s t tmpl

/-- Witness for C10: with one BOLD file, requesting two segments trips the
assertion with an empty trace, while requesting one segment does not trip
it. -/
theorem subset_and_process_assert_guard_witness :
    (subset_and_process_movie10 (fun _ => 5) (fun _ => ⟨[], []⟩)
        ["b1.nii"] ["r1.tsv"] [3] (some 2) none [3] "sub-01" "bourne" "tmpl"
      = { trace := [], ret := .error .assertionFailed }) ∧
    ((subset_and_process_movie10 (fun _ => 5) (fun _ => ⟨[], []⟩)
        ["b1.nii"] ["r1.tsv"] [3] (some 1) none [3] "sub-01" "bourne" "tmpl").ret
      ≠ .error .assertionFailed) :=
  ⟨(subset_and_process_assert_guard (fun _ => 5) (fun _ => ⟨[], []⟩)
      ["b1.nii"] ["r1.tsv"] [3] none [3] "sub-01" "bourne" "tmpl" 2).1
      (by decide),
   (subset_and_process_assert_guard (fun _ => 5) (fun _ => ⟨[], []⟩)
      ["b1.nii"] ["r1.tsv"] [3] none [3] "sub-01" "bourne" "tmpl" 1).2
      (by decide)⟩

/-! ### The success path of the processing body -/

lemma loadConfounds_ok (confFiles : String → Tsv) (rs : List String)
    (h : ∀ r ∈ rs, (_subset_confounds (confFiles r)).isSome) :
    loadConfounds confFiles rs =
      (rs.map Effect.readConfounds,
       .ok (rs.map (fun r => (_subset_confounds (confFiles r)).getD []))) := by
  induction rs with
  | nil => rfl
  | cons r rs ih =>
    obtain ⟨c, hc⟩ := Option.isSome_iff_exists.mp (h r (by simp))
    have hrest := ih (fun r' hr' => h r' (by simp [hr']))
    simp [loadConfounds, hc, hrest, Except.map]

lemma cleanLoop_ok (boldFrames : String → Nat) (fwhm : Option Nat)
    (confounds : List (List (String × List String))) (seg_len : List Nat)
    (ms : List String) (n : Nat)
    (hc : n + ms.length ≤ confounds.length)
    (hs : n + ms.length ≤ seg_len.length) :
    cleanLoop boldFrames fwhm confounds seg_len ms n =
      (ms.map Effect.cleanScan,
       .ok (List.zipWith (fun L m => (⟨min L (boldFrames m)⟩ : Image))
            (seg_len.drop n) ms)) := by
  induction ms generalizing n with
  | nil => simp [cleanLoop]
  | cons m ms ih =>
    have hcn : n < confounds.length := by simp at hc; omega
    have hsn : n < seg_len.length := by simp at hs; omega
    have h1 : confounds[n]? = some confounds[n] := List.getElem?_eq_getElem hcn
    have h2 : seg_len[n]? = some seg_len[n] := List.getElem?_eq_getElem hsn
    have hrest := ih (n + 1) (by simp at hc ⊢; omega) (by simp at hs ⊢; omega)
    have hdrop : seg_len.drop n = seg_len[n] :: seg_len.drop (n + 1) :=
      List.drop_eq_getElem_cons hsn
    simp only [cleanLoop, h1, h2, hrest]
    simp [_nifti_mask_movie, Except.map]
    rw [hdrop]
    rfl

lemma writesOf_reads (rs : List String) :
    writesOf (rs.map Effect.readConfounds) = [] := by
  induction rs with
  | nil => rfl
  | cons r rs ih => simp [writesOf]

lemma writesOf_cleans (ms : List String) :
    writesOf (ms.map Effect.cleanScan) = [] := by
  induction ms with
  | nil => rfl
  | cons m ms ih => simp [writesOf]

lemma writesOf_append (a b : List Effect) :
    writesOf (a ++ b) = writesOf a ++ writesOf b :=
  List.filterMap_append a b _

lemma processBody_ok (boldFrames : String → Nat) (confFiles : String → Tsv)
    (mseg rseg : List String) (fwhm : Option Nat) (seg_len : List Nat)
    (s t tmpl : String)
    (hconf : ∀ r ∈ rseg, (_subset_confounds (confFiles r)).isSome)
    (hlc : mseg.length ≤ rseg.length) (hls : mseg.length ≤ seg_len.length)
    (hne : mseg ≠ []) :
    processBody boldFrames confFiles mseg rseg fwhm seg_len s t tmpl =
      { trace := rseg.map Effect.readConfounds ++ mseg.map Effect.cleanScan
          ++ [.writeImage (procName s t tmpl fwhm)
               ⟨(List.zipWith (fun L m => min L (boldFrames m)) seg_len mseg).sum⟩],
        ret := .ok (procName s t tmpl fwhm) } := by
  have hload := loadConfounds_ok confFiles rseg hconf
  have hclean := cleanLoop_ok boldFrames fwhm
    (rseg.map (fun r => (_subset_confounds (confFiles r)).getD []))
    seg_len mseg 0 (by simpa using hlc) (by simpa using hls)
  cases mseg with
  | nil => exact absurd rfl hne
  | cons m ms =>
    cases seg_len with
    | nil => simp at hls
    | cons L Ls =>
      simp only [processBody, hload, hclean, List.drop_zero]
      simp [List.map_zipWith]

/-- C4: on every successful call (here: a feasible `n_segments = k`, enough
regressor files and global segment lengths, and readable confound files),
exactly one output scan file is written; its name is the subject/task
template filename with `desc-preproc` replaced by `desc-fwhm{fwhm}`, and the
same name is returned. -/
theorem subset_and_process_single_write
    (boldFrames : String → Nat) (confFiles : String → Tsv)
    (bold_files regressors : List String) (segment_lengths : List Nat)
    (fwhm : Option Nat) (seg_len : List Nat) (s t tmpl : String) (k : Nat)
    (hk0 : 0 < k) (hkb : k ≤ bold_files.length) (hkr : k ≤ regressors.length)
    (hks : k ≤ seg_len.length)
    (hconf : ∀ r ∈ regressors.take k, (_subset_confounds (confFiles r)).isSome) :
    (subset_and_process_movie10 boldFrames confFiles bold_files regressors
        segment_lengths (some k) fwhm seg_len s t tmpl).ret
      = .ok (procName s t tmpl fwhm) ∧
    ∃ img, writesOf (subset_and_process_movie10 boldFrames confFiles bold_files
        regressors segment_lengths (some k) fwhm seg_len s t tmpl).trace
      = [(procName s t tmpl fwhm, img)] := by
  have hlen : (bold_files.take k).length = k := by
    simp [List.length_take]
    omega
  have hbody := processBody_ok boldFrames confFiles (bold_files.take k)
    (regressors.take k) fwhm seg_len s t tmpl hconf
    (by simp [List.length_take]; omega)
    (by simp [List.length_take]; omega)
    (by intro hnil; rw [hnil] at hlen; simp at hlen; omega)
  simp only [subset_and_process_movie10]
  rw [if_pos hkb, hbody]
  refine ⟨rfl,
    ⟨⟨(List.zipWith (fun L m => min L (boldFrames m)) seg_len
        (bold_files.take k)).sum⟩, ?_⟩⟩
  simp only [writesOf_append, writesOf_reads, writesOf_cleans]
  simp [writesOf]

/-- Witness for C4: one segment of one subject/task processed end to end; the
single write carries the `desc-fwhm6` name that is also returned. -/
theorem subset_and_process_single_write_witness :
    0 < 1 ∧ (1 ≤ (["b1.nii"] : List String).length) ∧
    (1 ≤ (["r1.tsv"] : List String).length) ∧ (1 ≤ ([403] : List Nat).length) ∧
    (∀ r ∈ (["r1.tsv"] : List String).take 1,
      (_subset_confounds ((fun _ =>
        Tsv.mk keep_confounds [["0", "0", "0", "0", "0", "0", "0", "0"]]) r)).isSome) ∧
    ((subset_and_process_movie10 (fun _ => 500)
        (fun _ => Tsv.mk keep_confounds [["0", "0", "0", "0", "0", "0", "0", "0"]])
        ["b1.nii"] ["r1.tsv"] [403] (some 1) (some 6) [403] "sub-01" "bourne"
        "space-MNI152NLin2009cAsym_desc-preproc_bold").ret
      = .ok (procName "sub-01" "bourne"
          "space-MNI152NLin2009cAsym_desc-preproc_bold" (some 6)) ∧
    ∃ img, writesOf (subset_and_process_movie10 (fun _ => 500)
        (fun _ => Tsv.mk keep_confounds [["0", "0", "0", "0", "0", "0", "0", "0"]])
        ["b1.nii"] ["r1.tsv"] [403] (some 1) (some 6) [403] "sub-01" "bourne"
        "space-MNI152NLin2009cAsym_desc-preproc_bold").trace
      = [(procName "sub-01" "bourne"
          "space-MNI152NLin2009cAsym_desc-preproc_bold" (some 6), img)]) :=
  ⟨by decide, by decide, by decide, by decide, by decide,
   subset_and_process_single_write (fun _ => 500)
     (fun _ => Tsv.mk keep_confounds [["0", "0", "0", "0", "0", "0", "0", "0"]])
     ["b1.nii"] ["r1.tsv"] [403] (some 6) [403] "sub-01" "bourne"
     "space-MNI152NLin2009cAsym_desc-preproc_bold" 1
     (by decide) (by decide) (by decide) (by decide) (by decide)⟩

/-- C1 is false of the code as written: the function truncates with the
module-level global `seg_len`, never with its `segment_lengths` parameter
(which its own docstring documents as "the number of frames to consider from
each segment").  Called with `segment_lengths = [7]` while the global
`seg_len` is `[3]`, on a 10-frame segment, the single written output has 3
frames, not the `[7].take 1` sum of 7 the claim requires. -/
theorem subset_and_process_uses_global_seg_len :
    writesOf (subset_and_process_movie10 (fun _ => 10)
        (fun _ => Tsv.mk keep_confounds [["0", "0", "0", "0", "0", "0", "0", "0"]])
        ["b1.nii"] ["r1.tsv"] [7] (some 1) (some 6) [3] "sub-01" "bourne"
        "space-MNI152NLin2009cAsym_desc-preproc_bold").trace
      = [("sub-01/sub-01_task-bourne_space-MNI152NLin2009cAsym_desc-fwhm6_bold.nii.gz",
          ⟨3⟩)] ∧
    (3 : Nat) ≠ (([7] : List Nat).take 1).sum := by
  decide

end MakeDataset
